import Mathlib

/-
Verification of the conversation persistence and contextual-response
pipeline of a career-counselling chat application (app.py).

The application keeps two sqlite tables,
  users(id AUTOINCREMENT, username UNIQUE, password_hash)
  chat_history(id AUTOINCREMENT, user_id, message, is_user, timestamp),
and a per-session history list whose entries are Python dicts of two
shapes: rows loaded from the store carry the keys message, is_user and
timestamp, while entries appended during a session carry the keys
message and response.

Modelling choices, each noted again at the definition it concerns:
- sqlite AUTOINCREMENT ids are modelled by the counters nextUserId and
  nextChatId starting at 1; tables are lists kept in ascending-id
  (insertion) order, so ORDER BY id ASC coincides with list order.
- CURRENT_TIMESTAMP is modelled as the inserting row id, a monotonic
  tick; no claim depends on clock values.
- hashlib.sha256(pwd.encode()).hexdigest() is modelled as an injective
  tagging function: the digest is assumed deterministic and
  collision-free, and only determinism and injectivity of the digest
  are used in proofs. One-wayness is not representable in this model.
- a raised Python exception (a KeyError, a failed model call) is
  modelled as Option.none propagating out of the operation.
-/

/-- Row of the users table: id, username, password_hash. -/
structure UserRow where
  id : Nat
  username : String
  password_hash : String
  deriving DecidableEq

/-- Row of the chat_history table: id, user_id, message, is_user
(1 = user, 0 = bot) and timestamp, modelled as the insertion tick,
equal to the row id. -/
structure ChatRow where
  id : Nat
  user_id : Nat
  message : String
  is_user : Nat
  timestamp : Nat
  deriving DecidableEq

/-- One entry of the session history list st.session_state.chat_history.
Entries are Python dicts of two shapes: rows loaded by get_chat_history
carry the keys message, is_user and timestamp; entries appended by the
send handler carry the keys message and response. -/
inductive HistEntry where
  | stored (message : String) (is_user : Nat) (timestamp : Nat)
  | session (message : String) (response : String)
  deriving DecidableEq

/-- The database state: both tables plus the AUTOINCREMENT counters. -/
structure DB where
  users : List UserRow
  nextUserId : Nat
  chats : List ChatRow
  nextChatId : Nat
  deriving DecidableEq

/-- Fresh database as created by DatabaseManager._create_tables: both
tables empty, AUTOINCREMENT counters at 1. -/
def emptyDB : DB := { users := [], nextUserId := 1, chats := [], nextChatId := 1 }

/-- DatabaseManager.hash_password, that is
hashlib.sha256(pwd.encode()).hexdigest(). The cryptographic hash is
modelled as an injective tagging function; as in the source, the digest
is a deterministic function of the password alone (no salt is used). -/
def hash_password (pwd : String) : String := "sha256:" ++ pwd

/-- Account dict returned by authenticate_user: keys id and username. -/
structure Account where
  id : Nat
  username : String
  deriving DecidableEq

/-- DatabaseManager.create_user: INSERT INTO users. The UNIQUE constraint
on username makes the insert raise for an existing username; the bare
except catches it and returns False with the database unchanged. On
success the digest of the password is stored under a fresh id and True
is returned. -/
def create_user (db : DB) (username pwd : String) : DB × Bool :=
  if db.users.any (fun r => r.username == username) then (db, false)
  else ({ db with
            users := db.users ++ [⟨db.nextUserId, username, hash_password pwd⟩],
            nextUserId := db.nextUserId + 1 }, true)

/-- DatabaseManager.authenticate_user: SELECT by username (fetchone gives
the first matching row), then compare the stored digest with the digest
of the supplied password; the account dict on a match, None otherwise. -/
def authenticate_user (db : DB) (username pwd : String) : Option Account :=
  match db.users.find? (fun r => r.username == username) with
  | none => none
  | some row =>
      if row.password_hash == hash_password pwd then some ⟨row.id, row.username⟩
      else none

/-- DatabaseManager.save_chat: two INSERTs into chat_history (the user
message with is_user = 1, then the bot response with is_user = 0)
followed by a single commit, so a reader on another connection sees both
rows or neither: the call is one atomic transition of the model. -/
def save_chat (db : DB) (user_id : Nat) (msg resp : String) : DB :=
  { db with
      chats := db.chats ++
        [⟨db.nextChatId, user_id, msg, 1, db.nextChatId⟩,
         ⟨db.nextChatId + 1, user_id, resp, 0, db.nextChatId + 1⟩],
      nextChatId := db.nextChatId + 2 }

/-- DatabaseManager.get_chat_history: SELECT message, is_user, timestamp
FROM chat_history WHERE user_id=? ORDER BY id ASC, returned as a list of
dicts with the keys message, is_user and timestamp. DB.chats is kept in
ascending-id insertion order, so ORDER BY id ASC is the list order. The
login handler stores this list directly as the session history. -/
def get_chat_history (db : DB) (user_id : Nat) : List HistEntry :=
  (db.chats.filter (fun r => r.user_id == user_id)).map
    (fun r => HistEntry.stored r.message r.is_user r.timestamp)

/-- One iteration of the context loop in CareerChatbot.get_response,
appending the line pair for one history entry. Both dict shapes carry
the key message, but only session entries carry the key response: on a
stored entry the lookup of response raises a KeyError, modelled none. -/
def histLine (h : HistEntry) : Option String :=
  match h with
  | HistEntry.session m r => some ("User: " ++ m ++ "\nAssistant: " ++ r ++ "\n")
  | HistEntry.stored _ _ _ => none

/-- Prompt construction in CareerChatbot.get_response: start from the
system preamble, append one line pair per entry of history[-3:] (the
Python slice keeps the last min(3, length) entries; the emptiness guard
on history only skips a loop that would do nothing anyway), then append
the new message with an open Assistant: continuation marker. Returns
none when the loop raises a KeyError on a stored-shape entry. -/
def get_response_context (message : String) (history : List HistEntry) : Option String :=
  let context := "You are a helpful career counsellor.\n"
  let folded := (history.drop (history.length - 3)).foldl
      (fun acc h => acc.bind (fun c => (histLine h).map (fun s => c ++ s)))
      (some context)
  folded.map (fun c => c ++ ("User: " ++ message ++ "\nAssistant:"))

/-- Python str.strip() with no argument: remove leading and trailing
whitespace. Defined structurally on the character list so that it
evaluates inside the kernel. -/
def pyStrip (s : String) : String :=
  ⟨((s.data.dropWhile Char.isWhitespace).reverse.dropWhile Char.isWhitespace).reverse⟩

/-- The send-button handler: when msg.strip() is non-empty, it calls
CareerChatbot.get_response (build the context, call the model, strip the
reply), appends the message/response dict to the session history and
persists the pair with save_chat; otherwise it does nothing. The model
call is a parameter returning none on any model error; an exception
anywhere (a KeyError while building the context, or a failed model call)
aborts the handler before anything is appended or persisted. The result
is the database and session history after the click. -/
def send_button (db : DB) (history : List HistEntry) (user_id : Nat)
    (msg : String) (model : String → Option String) : DB × List HistEntry :=
  if pyStrip msg ≠ "" then
    match get_response_context msg history with
    | none => (db, history)
    | some prompt =>
        match model prompt with
        | none => (db, history)
        | some raw =>
            let resp := pyStrip raw
            (save_chat db user_id msg resp, history ++ [HistEntry.session msg resp])
  else (db, history)

/-- Predicate for a fully paired chat table: the rows split into
consecutive pairs, each a user row (is_user = 1) immediately followed by
the bot row (is_user = 0) of the same account. -/
def pairedChats : List ChatRow → Bool
  | [] => true
  | [_] => false
  | u :: b :: rest =>
      u.is_user == 1 && b.is_user == 0 && u.user_id == b.user_id && pairedChats rest

/-- Database states reachable from a fresh database through the mutating
operations of the application (create_user and save_chat; the remaining
operations only read). -/
inductive Reachable : DB → Prop
  | init : Reachable emptyDB
  | create (u p : String) {db : DB} : Reachable db → Reachable (create_user db u p).1
  | save (uid : Nat) (m r : String) {db : DB} :
      Reachable db → Reachable (save_chat db uid m r)

/-- The history an account holds after its pairs were appended starting
at tick n: for each pair in order, the user record then the bot record,
with consecutive ticks as timestamps. -/
def expectedHistory : Nat → List (String × String) → List HistEntry
  | _, [] => []
  | n, (m, r) :: rest =>
      HistEntry.stored m 1 n :: HistEntry.stored r 0 (n + 1) ::
        expectedHistory (n + 2) rest

/-- Entries of the session shape (appended by the send handler). -/
def isSession : HistEntry → Bool
  | HistEntry.session _ _ => true
  | HistEntry.stored _ _ _ => false

/-- Rendering of the retained history entries as User:/Assistant: line
pairs, in order; stored-shape entries render nothing (the loop raises on
them instead, which get_response_context accounts for). -/
def histBlock : List HistEntry → String
  | [] => ""
  | HistEntry.session m r :: t =>
      ("User: " ++ m ++ "\nAssistant: " ++ r ++ "\n") ++ histBlock t
  | HistEntry.stored _ _ _ :: t => histBlock t

/-- One loop step on a session-shape entry appends its line pair. -/
theorem foldl_histLine_session (l : List HistEntry) :
    ∀ c : String, (∀ h ∈ l, isSession h = true) →
    l.foldl (fun acc h => acc.bind (fun c => (histLine h).map (fun s => c ++ s)))
        (some c)
      = some (c ++ histBlock l) := by
  induction l with
  | nil =>
      intro c _
      simp [histBlock]
  | cons h t ih =>
      intro c hall
      cases h with
      | stored m u ts =>
          have hs := hall _ (List.mem_cons_self _ _)
          simp [isSession] at hs
      | session m r =>
          have ht : ∀ x ∈ t, isSession x = true :=
            fun x hx => hall x (List.mem_cons_of_mem _ hx)
          rw [List.foldl_cons]
          have hstep :
              ((some c).bind
                (fun cc => (histLine (HistEntry.session m r)).map (fun s => cc ++ s)))
              = some (c ++ ("User: " ++ m ++ "\nAssistant: " ++ r ++ "\n")) := rfl
          rw [hstep, ih _ ht, histBlock, String.append_assoc]

/-- C1: for every history of exchanges and non-empty new message, the
prompt is exactly the system preamble, then the rendering of the most
recent min(3, length) exchanges in order (older ones omitted), then the
new message with an open Assistant: continuation marker; for an empty
history the prompt is just the preamble and the new message. -/
theorem context_window_last_three (history : List HistEntry) (message : String)
    (hmsg : message ≠ "")
    (hses : ∀ h ∈ history, isSession h = true) :
    get_response_context message history =
      some ("You are a helpful career counsellor.\n"
            ++ histBlock (history.drop (history.length - 3))
            ++ ("User: " ++ message ++ "\nAssistant:"))
    ∧ (history.drop (history.length - 3)).length = min 3 history.length
    ∧ (history = [] →
        get_response_context message history =
          some ("You are a helpful career counsellor.\n"
                ++ ("User: " ++ message ++ "\nAssistant:"))) := by
  have hwin : ∀ h ∈ history.drop (history.length - 3), isSession h = true :=
    fun h hh => hses h (List.mem_of_mem_drop hh)
  have hmain : get_response_context message history =
      some ("You are a helpful career counsellor.\n"
            ++ histBlock (history.drop (history.length - 3))
            ++ ("User: " ++ message ++ "\nAssistant:")) := by
    simp only [get_response_context]
    rw [foldl_histLine_session _ _ hwin]
    rfl
  refine ⟨hmain, ?_, ?_⟩
  · rw [List.length_drop]
    omega
  · intro hnil
    subst hnil
    rw [hmain]
    simp [histBlock, String.append_empty]

/-- Witness for C1: four exchanges of history, only the last three appear. -/
theorem context_window_last_three_witness :
    get_response_context "next"
        [HistEntry.session "a" "b", HistEntry.session "c" "d",
         HistEntry.session "e" "f", HistEntry.session "g" "h"]
      = some ("You are a helpful career counsellor.\nUser: c\nAssistant: d\n"
              ++ "User: e\nAssistant: f\nUser: g\nAssistant: h\nUser: next\nAssistant:")
    ∧ ([HistEntry.session "a" "b", HistEntry.session "c" "d",
        HistEntry.session "e" "f", HistEntry.session "g" "h"].drop
          (([HistEntry.session "a" "b", HistEntry.session "c" "d",
             HistEntry.session "e" "f", HistEntry.session "g" "h"] :
              List HistEntry).length - 3)).length = 3 := by
  have h := context_window_last_three
    [HistEntry.session "a" "b", HistEntry.session "c" "d",
     HistEntry.session "e" "f", HistEntry.session "g" "h"] "next"
    (by decide) (by decide)
  exact ⟨h.1.trans (by rfl), h.2.1.trans (by rfl)⟩

/-- The digest function, modelled injectively (collision resistance of
SHA-256 idealised as injectivity). -/
theorem hash_password_injective {p q : String}
    (h : hash_password p = hash_password q) : p = q := by
  have hd := congrArg String.data h
  simp [hash_password, String.data_append] at hd
  exact String.ext hd

/-- After a successful create_user, the lookup by that username finds
exactly the freshly inserted row. -/
theorem create_user_find (db : DB) (u p : String)
    (hok : (create_user db u p).2 = true) :
    (create_user db u p).1.users.find? (fun r => r.username == u)
      = some ⟨db.nextUserId, u, hash_password p⟩ := by
  by_cases hdup : db.users.any (fun r => r.username == u)
  · simp [create_user, hdup] at hok
  · have hall : ∀ x ∈ db.users, ¬ x.username = u := by simpa using hdup
    have hnone : db.users.find? (fun r => r.username == u) = none := by
      rw [List.find?_eq_none]
      intro x hx
      simpa using hall x hx
    simp [create_user, hdup, List.find?_append, hnone]

/-- C2: when create_user succeeds, authenticate_user with the same
username and password returns the created account (fresh id, same
username), while authenticate_user with any different password for that
username returns none. -/
theorem signup_then_login (db : DB) (u p : String)
    (hok : (create_user db u p).2 = true) :
    authenticate_user (create_user db u p).1 u p = some ⟨db.nextUserId, u⟩
    ∧ ∀ q : String, q ≠ p → authenticate_user (create_user db u p).1 u q = none := by
  have hfind := create_user_find db u p hok
  constructor
  · simp [authenticate_user, hfind]
  · intro q hq
    simp [authenticate_user, hfind]
    intro hb
    exact hq (hash_password_injective hb).symm

/-- Witness for C2: after signing up alice, logging in with the same
password succeeds and a different password fails. -/
theorem signup_then_login_witness :
    authenticate_user (create_user emptyDB "alice" "pw123").1 "alice" "pw123"
      = some ⟨1, "alice"⟩
    ∧ authenticate_user (create_user emptyDB "alice" "pw123").1 "alice" "hunter2"
      = none := by
  have h := signup_then_login emptyDB "alice" "pw123" (by decide)
  exact ⟨h.1, h.2 "hunter2" (by decide)⟩

/-- One save_chat call appends exactly the user record then the bot
record to the history of that account. -/
theorem get_chat_history_save (db : DB) (uid : Nat) (m r : String) :
    get_chat_history (save_chat db uid m r) uid
      = get_chat_history db uid
        ++ [HistEntry.stored m 1 db.nextChatId,
            HistEntry.stored r 0 (db.nextChatId + 1)] := by
  simp [get_chat_history, save_chat, List.filter_append]

/-- A save_chat call for a different account leaves the history of an
account unchanged. -/
theorem get_chat_history_save_other (db : DB) (a b : Nat) (m r : String)
    (hne : b ≠ a) :
    get_chat_history (save_chat db b m r) a = get_chat_history db a := by
  simp [get_chat_history, save_chat, List.filter_append, hne]

/-- Folding a list of pairs through save_chat appends exactly the
expected interleaved records at consecutive ticks. -/
theorem get_chat_history_foldl (pairs : List (String × String)) :
    ∀ db : DB, ∀ uid : Nat,
    get_chat_history (pairs.foldl (fun d pr => save_chat d uid pr.1 pr.2) db) uid
      = get_chat_history db uid ++ expectedHistory db.nextChatId pairs := by
  induction pairs with
  | nil =>
      intro db uid
      simp [expectedHistory]
  | cons pr rest ih =>
      intro db uid
      obtain ⟨m, r⟩ := pr
      rw [List.foldl_cons, ih (save_chat db uid m r) uid, get_chat_history_save]
      have hnext : (save_chat db uid m r).nextChatId = db.nextChatId + 2 := rfl
      rw [hnext, expectedHistory, List.append_assoc]
      rfl

/-- Length of the expected history: two records per appended pair. -/
theorem expectedHistory_length :
    ∀ (n : Nat) (pairs : List (String × String)),
    (expectedHistory n pairs).length = 2 * pairs.length
  | _, [] => rfl
  | n, (m, r) :: rest => by
      rw [expectedHistory]
      simp [expectedHistory_length (n + 2) rest]
      omega

/-- C3: starting from a database in which the account has no records,
N append_exchange calls leave the account with exactly the 2N records of
its N pairs, in append order (user record then bot record per pair), for
every N including 0. -/
theorem load_history_after_appends (db : DB) (uid : Nat)
    (pairs : List (String × String))
    (hempty : get_chat_history db uid = []) :
    get_chat_history (pairs.foldl (fun d pr => save_chat d uid pr.1 pr.2) db) uid
      = expectedHistory db.nextChatId pairs
    ∧ (get_chat_history (pairs.foldl (fun d pr => save_chat d uid pr.1 pr.2) db)
        uid).length = 2 * pairs.length := by
  have h := get_chat_history_foldl pairs db uid
  rw [hempty, List.nil_append] at h
  exact ⟨h, by rw [h]; exact expectedHistory_length db.nextChatId pairs⟩

/-- Witness for C3: two appended pairs for account 1 yield four records
in order with ticks 1 to 4. -/
theorem load_history_after_appends_witness :
    get_chat_history
        ([("q1", "a1"), ("q2", "a2")].foldl
          (fun d pr => save_chat d 1 pr.1 pr.2) emptyDB) 1
      = [HistEntry.stored "q1" 1 1, HistEntry.stored "a1" 0 2,
         HistEntry.stored "q2" 1 3, HistEntry.stored "a2" 0 4]
    ∧ (get_chat_history
        ([("q1", "a1"), ("q2", "a2")].foldl
          (fun d pr => save_chat d 1 pr.1 pr.2) emptyDB) 1).length = 4 := by
  have h := load_history_after_appends emptyDB 1 [("q1", "a1"), ("q2", "a2")] (by rfl)
  exact ⟨h.1.trans (by rfl), h.2.trans (by rfl)⟩

/-- create_user never touches the chat table. -/
theorem create_user_chats (db : DB) (u p : String) :
    (create_user db u p).1.chats = db.chats := by
  unfold create_user
  split <;> rfl

/-- Appending one completed pair preserves full pairing. -/
theorem pairedChats_append :
    ∀ l : List ChatRow, pairedChats l = true →
    ∀ u b : ChatRow, u.is_user = 1 → b.is_user = 0 → u.user_id = b.user_id →
    pairedChats (l ++ [u, b]) = true
  | [], _, u, b, hu, hb, huid => by
      simp [pairedChats, hu, hb, huid]
  | [_], h, _, _, _, _, _ => by
      simp [pairedChats] at h
  | x :: y :: rest, h, u, b, hu, hb, huid => by
      simp only [pairedChats, Bool.and_eq_true] at h
      simp only [List.cons_append, pairedChats, Bool.and_eq_true]
      exact ⟨⟨⟨h.1.1.1, h.1.1.2⟩, h.1.2⟩,
        pairedChats_append rest h.2 u b hu hb huid⟩

/-- C4: in every reachable database state the chat table consists of
completed pairs only: each bot record is immediately preceded by the
user record written by the same save_chat call, for the same account,
and no user record ever appears without its paired bot record. -/
theorem reachable_chats_paired {db : DB} (h : Reachable db) :
    pairedChats db.chats = true := by
  induction h with
  | init => rfl
  | create u p _ ih =>
      rw [create_user_chats]
      exact ih
  | save uid m r _ ih =>
      exact pairedChats_append _ ih _ _ rfl rfl rfl

/-- Witness for C4: a reachable state with one account and one saved
exchange has a fully paired chat table. -/
theorem reachable_chats_paired_witness :
    pairedChats (save_chat (create_user emptyDB "alice" "pw").1 1 "hi" "hello").chats
      = true :=
  reachable_chats_paired
    (Reachable.save 1 "hi" "hello" (Reachable.create "alice" "pw" Reachable.init))

/-- C5: once a username has been taken by a successful create_user, a
second create_user with the same username (any password) returns False
and leaves the database, hence the stored accounts and their count,
unchanged. -/
theorem duplicate_username_rejected (db : DB) (u p q : String)
    (hok : (create_user db u p).2 = true) :
    create_user (create_user db u p).1 u q = ((create_user db u p).1, false)
    ∧ ((create_user (create_user db u p).1 u q).1).users.length
      = ((create_user db u p).1).users.length := by
  have hfind := create_user_find db u p hok
  have hmem : ∃ r ∈ (create_user db u p).1.users, r.username = u := by
    have := List.find?_some hfind
    exact ⟨_, List.mem_of_find?_eq_some hfind, by simpa using this⟩
  have hany : (create_user db u p).1.users.any (fun r => r.username == u) = true := by
    rw [List.any_eq_true]
    obtain ⟨r, hr, hru⟩ := hmem
    exact ⟨r, hr, by simpa using hru⟩
  have hstep : ∀ d : DB, (d.users.any (fun r => r.username == u)) = true →
      create_user d u q = (d, false) := by
    intro d hd
    unfold create_user
    rw [if_pos hd]
  have hdone := hstep (create_user db u p).1 hany
  exact ⟨hdone, by rw [hdone]⟩

/-- Witness for C5: signing up alice twice, the second call fails and
the account list stays as it was. -/
theorem duplicate_username_rejected_witness :
    create_user (create_user emptyDB "alice" "pw").1 "alice" "other"
      = ((create_user emptyDB "alice" "pw").1, false)
    ∧ ((create_user (create_user emptyDB "alice" "pw").1 "alice" "other").1).users.length
      = ((create_user emptyDB "alice" "pw").1).users.length := by
  have h := duplicate_username_rejected emptyDB "alice" "pw" "other" (by decide)
  exact ⟨h.1, h.2⟩

/-- C6 counterexample: called directly with a whitespace-only message,
the prompt builder of CareerChatbot.get_response raises no error and
produces a prompt containing a blank user turn. The emptiness rejection
the claim describes does not exist in the builder. -/
theorem blank_message_builds_prompt :
    pyStrip "   " = ""
    ∧ get_response_context "   " []
      = some "You are a helpful career counsellor.\nUser:    \nAssistant:" := by
  exact ⟨rfl, rfl⟩

/-- C6 amended: the guard lives in the send handler, not the builder:
when the message strips to empty the handler silently does nothing — no
model call, no session append, no persistence, and also no surfaced
error value. -/
theorem send_blank_message_noop (db : DB) (history : List HistEntry)
    (uid : Nat) (msg : String) (model : String → Option String)
    (hblank : pyStrip msg = "") :
    send_button db history uid msg model = (db, history) := by
  unfold send_button
  rw [if_neg (by simp [hblank])]

/-- Witness for the amended C6: a click with a whitespace-only message
changes nothing. -/
theorem send_blank_message_noop_witness :
    send_button emptyDB [] 1 "  " (fun p => some p) = (emptyDB, []) :=
  send_blank_message_noop emptyDB [] 1 "  " (fun p => some p) (by decide)

/-- C7: when the model call raises (or the context construction itself
raises before it), the send handler persists nothing and appends
nothing: the user message is never stored without a reply. -/
theorem model_failure_leaves_store_unchanged (db : DB) (history : List HistEntry)
    (uid : Nat) (msg : String) (model : String → Option String)
    (hfail : (get_response_context msg history).bind model = none) :
    send_button db history uid msg model = (db, history) := by
  unfold send_button
  rcases hg : get_response_context msg history with _ | prompt
  · simp [hg]
  · rw [hg] at hfail
    simp only [Option.some_bind] at hfail
    simp [hg, hfail]

/-- Witness for C7: with a model that always fails, a send click leaves
the database and the session history unchanged. -/
theorem model_failure_leaves_store_unchanged_witness :
    send_button emptyDB [] 1 "hi" (fun _ => none) = (emptyDB, []) :=
  model_failure_leaves_store_unchanged emptyDB [] 1 "hi" (fun _ => none) (by rfl)

/-- C8: the history an account reads is unaffected by any sequence of
append_exchange calls made for other accounts: save_chat tags every row
with the id of the calling account and get_chat_history keeps exactly
the rows tagged with the querying account. -/
theorem history_unaffected_by_other_accounts (db : DB) (a : Nat)
    (ops : List (Nat × String × String))
    (hops : ∀ op ∈ ops, op.1 ≠ a) :
    get_chat_history (ops.foldl (fun d op => save_chat d op.1 op.2.1 op.2.2) db) a
      = get_chat_history db a := by
  induction ops generalizing db with
  | nil => rfl
  | cons op rest ih =>
      rw [List.foldl_cons,
        ih (save_chat db op.1 op.2.1 op.2.2)
          (fun o ho => hops o (List.mem_cons_of_mem _ ho)),
        get_chat_history_save_other db a op.1 op.2.1 op.2.2
          (hops op (List.mem_cons_self _ _))]

/-- Witness for C8: appends for account 2 leave the history of account 1
exactly as it was. -/
theorem history_unaffected_by_other_accounts_witness :
    get_chat_history
        ([(2, "x", "y"), (2, "u", "v")].foldl
          (fun d op => save_chat d op.1 op.2.1 op.2.2) (save_chat emptyDB 1 "m" "r")) 1
      = get_chat_history (save_chat emptyDB 1 "m" "r") 1 :=
  history_unaffected_by_other_accounts (save_chat emptyDB 1 "m" "r") 1
    [(2, "x", "y"), (2, "u", "v")] (by decide)

/-- C9 counterexample: two accounts created with the same password end up
with identical stored digests, because hash_password is a function of the
password alone: the stored credential is not salted. -/
theorem same_password_same_digest :
    (create_user (create_user emptyDB "alice" "s3cret").1 "bob" "s3cret").1.users.map
        (fun r => r.password_hash)
      = [hash_password "s3cret", hash_password "s3cret"] := by
  rfl

/-- The modelled digest of a password is never the password itself. -/
theorem hash_password_ne (p : String) : hash_password p ≠ p := by
  intro h
  have hl := congrArg String.length h
  rw [hash_password, String.length_append] at hl
  have h7 : ("sha256:" : String).length = 7 := rfl
  rw [h7] at hl
  omega

/-- C9 amended: a successful create_user stores for the account exactly
the unsalted deterministic digest of the password, not the raw password
itself. -/
theorem password_stored_as_digest (db : DB) (u p : String)
    (hok : (create_user db u p).2 = true) :
    ((create_user db u p).1.users.find? (fun r => r.username == u)).map
        (fun r => r.password_hash) = some (hash_password p)
    ∧ hash_password p ≠ p := by
  exact ⟨by rw [create_user_find db u p hok]; rfl, hash_password_ne p⟩

/-- Witness for the amended C9: a concrete sign-up stores the digest. -/
theorem password_stored_as_digest_witness :
    ((create_user emptyDB "carol" "pw9").1.users.find? (fun r => r.username == "carol")).map
        (fun r => r.password_hash) = some (hash_password "pw9")
    ∧ hash_password "pw9" ≠ "pw9" :=
  password_stored_as_digest emptyDB "carol" "pw9" (by decide)

/-- The folded context loop raises as soon as any retained entry lacks
the response key. -/
theorem foldl_histLine_none (l : List HistEntry) :
    ∀ acc : Option String, (∃ h ∈ l, histLine h = none) ∨ acc = none →
    l.foldl (fun acc h => acc.bind (fun c => (histLine h).map (fun s => c ++ s))) acc
      = none := by
  induction l with
  | nil =>
      intro acc hcase
      rcases hcase with ⟨h, hh, _⟩ | hacc
      · exact absurd hh (List.not_mem_nil h)
      · exact hacc
  | cons h t ih =>
      intro acc hcase
      rw [List.foldl_cons]
      rcases hcase with ⟨x, hx, hxline⟩ | hacc
      · rcases List.mem_cons.mp hx with hxh | hxt
        · subst hxh
          refine ih _ (Or.inr ?_)
          rw [hxline]
          cases acc <;> rfl
        · exact ih _ (Or.inl ⟨x, hxt, hxline⟩)
      · subst hacc
        exact ih _ (Or.inr rfl)

/-- C10: the session history mixes two record shapes, and whenever at
least one store-loaded record (shape message/is_user/timestamp) sits in
the last three entries, CareerChatbot.get_response raises a KeyError on
the missing response key and no prompt is produced. -/
theorem stored_entry_breaks_response (history : List HistEntry) (message : String)
    (hbad : ∃ h ∈ history.drop (history.length - 3), isSession h = false) :
    get_response_context message history = none := by
  simp only [get_response_context]
  rw [foldl_histLine_none]
  · rfl
  · obtain ⟨h, hh, hs⟩ := hbad
    refine Or.inl ⟨h, hh, ?_⟩
    cases h with
    | stored m u ts => rfl
    | session m r => simp [isSession] at hs

/-- Witness for C10: a freshly loaded one-record history makes the next
send raise instead of producing a prompt. -/
theorem stored_entry_breaks_response_witness :
    get_response_context "next" [HistEntry.stored "hello" 1 1] = none :=
  stored_entry_breaks_response [HistEntry.stored "hello" 1 1] "next"
    ⟨HistEntry.stored "hello" 1 1, by decide, rfl⟩
